import Mathlib

/-!
Shallow embedding of the logo-archive core: the filename record parser
(`parseLogoFromFilename`) and the query engine (`filteredLogos`) of the
full-guard variant in the repository's main component file, together with
the single-select filter handlers.  JavaScript strings are modelled as
Lean `String`, JS numbers on the integer values occurring here as `Int`,
and `parseInt` as a partial decimal/hexadecimal prefix parse returning
`Option Int` (NaN is `none`).
-/

namespace LogoArchive

/-- The `Logo` interface of the source: one parsed catalog record. -/
structure Logo where
  id : Int
  name : String
  year : Int
  color : String
  type : String
  imageUrl : String
  source : String
deriving Repr, DecidableEq

/-- The transient query state: free-text `searchTerm` plus the structured
`filters` object `{color, type}` (an unset filter is the empty string,
which is falsy in the source). -/
structure Query where
  searchTerm : String
  color : String
  type : String
deriving Repr, DecidableEq

/-- Value of a hexadecimal digit character. -/
def hexVal (c : Char) : Nat :=
  if c.isDigit then c.toNat - '0'.toNat
  else if 'a' ≤ c && c ≤ 'f' then c.toNat - 'a'.toNat + 10
  else c.toNat - 'A'.toNat + 10

/-- Hexadecimal digit test (`0-9a-fA-F`). -/
def isHexDigit (c : Char) : Bool :=
  c.isDigit || ('a' ≤ c && c ≤ 'f') || ('A' ≤ c && c ≤ 'F')

/-- Value of a digit list read in the given base, most significant first. -/
def digitsVal (base : Nat) (ds : List Char) : Nat :=
  ds.foldl (fun acc c => acc * base + hexVal c) 0

/-- The optional sign step of `parseInt`: a leading `-` or `+` is
consumed and fixes the sign. -/
def jsSign : List Char → Int × List Char
  | '-' :: rest => (-1, rest)
  | '+' :: rest => (1, rest)
  | cs => (1, cs)

/-- The radix-16 trigger of `parseInt`: the (sign-stripped) text starts
with `0x` or `0X`. -/
def jsHexMark : List Char → Bool
  | '0' :: c :: _ => c == 'x' || c == 'X'
  | _ => false

/-- JavaScript `parseInt(s)` (radix argument omitted): skip leading
whitespace, read an optional sign, then either a `0x`/`0X`-prefixed run of
hexadecimal digits (radix 16) or a run of decimal digits (radix 10); the
longest such run gives the value, and the result is NaN (`none`) when the
run is empty. -/
def jsParseInt (s : String) : Option Int :=
  let cs := s.toList.dropWhile Char.isWhitespace
  let sb := jsSign cs
  let sign := sb.1
  let body := sb.2
  if jsHexMark body then
    let ds := (body.drop 2).takeWhile isHexDigit
    if ds.isEmpty then none else some (sign * (digitsVal 16 ds : Int))
  else
    let ds := body.takeWhile Char.isDigit
    if ds.isEmpty then none else some (sign * (digitsVal 10 ds : Int))

/-- Modelled from the claim's words: "leading characters form an integer"
— the leading run of decimal digits of the term read as an integer
(`none` when the term does not begin with a digit). -/
def decimalPrefixInt (s : String) : Option Int :=
  let ds := s.toList.takeWhile Char.isDigit
  if ds.isEmpty then none else some (digitsVal 10 ds : Int)

/-- The term's first character is a decimal digit. -/
def headIsDigit (s : String) : Bool :=
  match s.toList with
  | c :: _ => c.isDigit
  | [] => false

/-- `year: parseInt(year) || 2000` — both NaN and `0` are falsy in JS, so
the default 2000 is taken when the field fails to parse or parses to 0. -/
def parseYear (s : String) : Int :=
  match jsParseInt s with
  | some n => if n = 0 then 2000 else n
  | none => 2000

/-- Boolean "p is a prefix of l" on character lists. -/
def isPrefixB : List Char → List Char → Bool
  | [], _ => true
  | _ :: _, [] => false
  | a :: as, b :: bs => a == b && isPrefixB as bs

/-- JavaScript `s.split(sep)` for a single-character separator, on
character lists: every maximal run between separator occurrences, with
empty runs kept (`"".split('|')` is `[""]`, `"|".split('|')` is
`["", ""]`). -/
def splitOnChar (sep : Char) : List Char → List (List Char)
  | [] => [[]]
  | c :: cs =>
    if c == sep then [] :: splitOnChar sep cs
    else
      match splitOnChar sep cs with
      | r :: rs => (c :: r) :: rs
      | [] => [[c]]

/-- `s.split(sep)` lifted back to strings. -/
def splitOnStr (sep : Char) (s : String) : List String :=
  (splitOnChar sep s.toList).map String.mk

/-- JavaScript `s.toLowerCase()` on the ASCII data occurring here:
`Char.toLower` lowers exactly `A`-`Z`. -/
def toLowerStr (s : String) : String :=
  String.mk (s.toList.map Char.toLower)

/-- JavaScript `s.trim()`: leading and trailing whitespace removed. -/
def trimStr (s : String) : String :=
  String.mk (((s.toList.dropWhile Char.isWhitespace).reverse.dropWhile
    Char.isWhitespace).reverse)

/-- `name.replace(/([A-Z])/g, ' $1')`: a space is inserted before every
ASCII upper-case letter (`Char.isUpper` is exactly `A`-`Z`). -/
def insertSpaces (s : String) : String :=
  String.mk (s.toList.foldr (fun c acc => if c.isUpper then ' ' :: c :: acc else c :: acc) [])

/-- `source.startsWith('www') ? \x60https://${source}\x60 : source`. -/
def parseSource (s : String) : String :=
  if isPrefixB "www".toList s.toList then "https://" ++ s else s

/-- `filename.split('.')[0]`: everything before the first `.` of the whole
string (the whole string when it has no `.`). -/
def stripExtension (s : String) : String :=
  (splitOnStr '.' s).headD ""

/-- The fixed sentinel record returned by the `catch` block, with `id`
still equal to the caller-supplied position. -/
def fallbackLogo (id : Int) : Logo :=
  { id := id
    name := "Invalid Logo"
    year := 2000
    color := "black"
    type := "serif"
    imageUrl := "/logos/default.png"
    source := "https://example.com" }

/-- `parseLogoFromFilename(filename, id)` of the full-guard variant: the
three `throw` sites (empty input, part count ≠ 5, an empty part) are all
caught by the surrounding `catch`, which returns the fallback record, so
they are modelled as early fallback returns. -/
def parseLogoFromFilename (filename : String) (id : Int) : Logo :=
  if filename = "" then fallbackLogo id
  else
    match splitOnStr '|' (stripExtension filename) with
    | [nm, col, src, ty, yr] =>
      if nm = "" ∨ col = "" ∨ src = "" ∨ ty = "" ∨ yr = "" then fallbackLogo id
      else
        { id := id
          name := trimStr (insertSpaces nm)
          year := parseYear yr
          color := toLowerStr col
          type := toLowerStr ty
          imageUrl := "/logos/" ++ filename
          source := parseSource src }
    | _ => fallbackLogo id

/-- The claim's failure condition: empty input, extension-stripped string
not splitting on `|` into exactly 5 parts, or an empty part. -/
def malformedFilename (s : String) : Prop :=
  s = "" ∨ (splitOnStr '|' (stripExtension s)).length ≠ 5 ∨
    ∃ part ∈ splitOnStr '|' (stripExtension s), part = ""

instance (s : String) : Decidable (malformedFilename s) := by
  unfold malformedFilename; infer_instance

/-- `isInDecade(year, searchYear)`: `Math.floor(searchYear / 10) * 10` is
floor division, `Int.fdiv`. -/
def isInDecade (year searchYear : Int) : Bool :=
  let decadeStart := searchYear.fdiv 10 * 10
  let decadeEnd := decadeStart + 9
  decide (decadeStart ≤ year ∧ year ≤ decadeEnd)

/-- Boolean "p occurs as a contiguous run of l". -/
def isInfixB (p : List Char) : List Char → Bool
  | [] => p.isEmpty
  | b :: bs => isPrefixB p (b :: bs) || isInfixB p bs

/-- JavaScript `s.includes(sub)`: substring containment (always true for
the empty substring). -/
def strIncludes (s sub : String) : Bool :=
  isInfixB sub.toList s.toList

/-- The per-record predicate of `filteredLogos`: text/year match AND color
match AND type match, exactly as in the source body of `logos.filter`. -/
def matchesQuery (q : Query) (logo : Logo) : Bool :=
  let searchLower := toLowerStr q.searchTerm
  let yearMatch :=
    match jsParseInt q.searchTerm with
    | some searchYear => isInDecade logo.year searchYear
    | none => false
  let matchesSearch := strIncludes (toLowerStr logo.name) searchLower || yearMatch
  let matchesColor := q.color == "" || logo.color == q.color
  let matchesType := q.type == "" || logo.type == q.type
  matchesSearch && matchesColor && matchesType

/-- `filteredLogos`: `logos.filter(...)` with the predicate above (the
defensive per-record `catch` is dead code — every operation in the body is
total). -/
def filteredLogos (logos : List Logo) (q : Query) : List Logo :=
  logos.filter (matchesQuery q)

/-- `handleColorSelect` of `ColorSelector`:
`onColorSelect(safeSelectedColor === colorId ? '' : colorId)`. -/
def handleColorSelect (selectedColor colorId : String) : String :=
  if selectedColor == colorId then "" else colorId

/-- `handleTypeSelect` of `TypographySelector`:
`onSelect(safeSelected === type ? '' : type)`. -/
def handleTypeSelect (selected ty : String) : String :=
  if selected == ty then "" else ty

/-- The two values the Typography selector's buttons can pass to
`handleTypeSelect`. -/
def typographyOptions : List String :=
  ["serif", "sans-serif"]

/-! ### Helper lemmas -/

lemma isPrefixB_iff (p l : List Char) : isPrefixB p l = true ↔ p <+: l := by
  induction p generalizing l with
  | nil => simp [isPrefixB]
  | cons a as ih =>
    cases l with
    | nil => simp [isPrefixB]
    | cons b bs =>
      simp [isPrefixB, List.cons_prefix_cons, ih, Bool.and_eq_true, beq_iff_eq]

lemma isInfixB_iff (p l : List Char) : isInfixB p l = true ↔ p <:+: l := by
  induction l with
  | nil => simp [isInfixB, List.isEmpty_iff, List.infix_nil]
  | cons b bs ih =>
    simp [isInfixB, Bool.or_eq_true, isPrefixB_iff, ih, List.infix_cons_iff]

lemma strIncludes_iff (s sub : String) :
    strIncludes s sub = true ↔ sub.toList <:+: s.toList := by
  simp [strIncludes, isInfixB_iff]

lemma toLowerStr_empty : toLowerStr "" = "" := rfl

lemma strIncludes_empty (s : String) : strIncludes s "" = true := by
  simp [strIncludes_iff]

lemma digit_not_ws (c : Char) (h : c.isDigit = true) : c.isWhitespace = false := by
  by_contra hw
  rw [Bool.not_eq_false] at hw
  simp only [Char.isWhitespace, Bool.or_eq_true, decide_eq_true_eq] at hw
  rcases hw with ((rfl | rfl) | rfl) | rfl <;> exact absurd h (by decide)

lemma digit_ne_minus (c : Char) (h : c.isDigit = true) : c ≠ '-' := by
  rintro rfl; exact absurd h (by decide)

lemma digit_ne_plus (c : Char) (h : c.isDigit = true) : c ≠ '+' := by
  rintro rfl; exact absurd h (by decide)

lemma jsSign_digit (c : Char) (rest : List Char) (h : c.isDigit = true) :
    jsSign (c :: rest) = (1, c :: rest) := by
  unfold jsSign
  split
  · next r heq =>
    exact absurd (List.head_eq_of_cons_eq heq) (digit_ne_minus c h)
  · next r heq =>
    exact absurd (List.head_eq_of_cons_eq heq) (digit_ne_plus c h)
  · rfl

lemma fdiv_ten_eq_floor (s : Int) : s.fdiv 10 = ⌊(s : ℚ) / 10⌋ := by
  have he : s.fdiv 10 = s / 10 := Int.fdiv_eq_ediv s (by norm_num)
  have h1 : s / 10 * 10 ≤ s := by omega
  have h2 : s < (s / 10 + 1) * 10 := by omega
  rw [he, eq_comm, Int.floor_eq_iff]
  constructor
  · rw [le_div_iff₀ (by norm_num : (0:ℚ) < 10)]
    exact_mod_cast h1
  · rw [div_lt_iff₀ (by norm_num : (0:ℚ) < 10)]
    exact_mod_cast h2

lemma parse_success_eq (s : String) (p : Int) (nm col src ty yr : String)
    (hs : ¬ s = "")
    (hp : splitOnStr '|' (stripExtension s) = [nm, col, src, ty, yr])
    (hne : ¬ (nm = "" ∨ col = "" ∨ src = "" ∨ ty = "" ∨ yr = "")) :
    parseLogoFromFilename s p =
      { id := p
        name := trimStr (insertSpaces nm)
        year := parseYear yr
        color := toLowerStr col
        type := toLowerStr ty
        imageUrl := "/logos/" ++ s
        source := parseSource src } := by
  unfold parseLogoFromFilename
  rw [if_neg hs, hp]
  exact if_neg hne

lemma parse_fallback_of_malformed (s : String) (p : Int) (h : malformedFilename s) :
    parseLogoFromFilename s p = fallbackLogo p := by
  by_cases hs : s = ""
  · simp [parseLogoFromFilename, hs]
  rcases hl : splitOnStr '|' (stripExtension s) with
    _ | ⟨a, _ | ⟨b, _ | ⟨c, _ | ⟨d, _ | ⟨e, _ | ⟨f, rest⟩⟩⟩⟩⟩⟩ <;>
    (unfold parseLogoFromFilename; rw [if_neg hs, hl]; try rfl)
  rcases h with h | h | h
  · exact absurd h hs
  · rw [hl] at h; simp at h
  · obtain ⟨part, hmem, hempty⟩ := h
    rw [hl] at hmem
    apply if_pos
    simp only [List.mem_cons, List.not_mem_nil, or_false] at hmem
    rcases hmem with rfl | rfl | rfl | rfl | rfl
    · exact Or.inl hempty
    · exact Or.inr (Or.inl hempty)
    · exact Or.inr (Or.inr (Or.inl hempty))
    · exact Or.inr (Or.inr (Or.inr (Or.inl hempty)))
    · exact Or.inr (Or.inr (Or.inr (Or.inr hempty)))

lemma successRecord_ne_fallback (s : String) (p : Int) (nm col src ty yr : String)
    (hp : splitOnStr '|' (stripExtension s) = [nm, col, src, ty, yr]) :
    ({ id := p
       name := trimStr (insertSpaces nm)
       year := parseYear yr
       color := toLowerStr col
       type := toLowerStr ty
       imageUrl := "/logos/" ++ s
       source := parseSource src } : Logo) ≠ fallbackLogo p := by
  intro h
  have himg : "/logos/" ++ s = "/logos/default.png" := congrArg Logo.imageUrl h
  have hdata : ("/logos/" : String).data ++ s.data =
      ("/logos/" : String).data ++ ("default.png" : String).data := by
    have h1 := congrArg String.data himg
    rw [String.data_append] at h1
    exact h1.trans (by decide)
  have hsdef : s = "default.png" := String.ext (List.append_cancel_left hdata)
  rw [hsdef] at hp
  have : splitOnStr '|' (stripExtension "default.png") = ["default"] := by decide
  rw [this] at hp
  simp at hp

/-! ### Claims -/

/-- C4 — decade matching: `isInDecade(y, s)` holds iff
`floor(s/10)*10 ≤ y ≤ floor(s/10)*10 + 9`. -/
theorem isInDecade_iff_floor (y s : Int) :
    isInDecade y s = true ↔
      ⌊(s : ℚ) / 10⌋ * 10 ≤ y ∧ y ≤ ⌊(s : ℚ) / 10⌋ * 10 + 9 := by
  unfold isInDecade
  rw [← fdiv_ten_eq_floor]
  simp

/-- C1 — Scenario A does NOT round-trip: the first `.` of the raw
identifier sits inside the source field `www.arxiu.barcelona`, so
`split('.')[0]` leaves only 3 pipe-separated parts and the parser returns
the fallback record, not the Barcelona record the spec promises. -/
theorem parse_scenarioA_returns_fallback :
    parseLogoFromFilename "BarcelonaArchives|Blue|www.arxiu.barcelona|Serif|1922.png" 1 =
      fallbackLogo 1 ∧
    (parseLogoFromFilename "BarcelonaArchives|Blue|www.arxiu.barcelona|Serif|1922.png" 1).name ≠
      "Barcelona Archives" := by
  exact ⟨by decide, by decide⟩

/-- C9 — toggle-single-select semantics of the color and typography
handlers: re-selecting the active value clears the filter, selecting a
different value replaces it, and a double selection starting from the
unset state returns to unset. -/
theorem toggle_select_semantics (v w : String) :
    (handleColorSelect v v = "" ∧ handleTypeSelect v v = "") ∧
    (v ≠ w → handleColorSelect v w = w ∧ handleTypeSelect v w = w) ∧
    (handleColorSelect (handleColorSelect "" v) v = "" ∧
      handleTypeSelect (handleTypeSelect "" v) v = "") := by
  refine ⟨⟨?_, ?_⟩, fun h => ⟨?_, ?_⟩, ?_, ?_⟩
  · simp [handleColorSelect]
  · simp [handleTypeSelect]
  · simp [handleColorSelect, h]
  · simp [handleTypeSelect, h]
  · by_cases hv : v = "" <;> simp [handleColorSelect, hv]
  · by_cases hv : v = "" <;> simp [handleTypeSelect, hv]

/-- Witness for C9 at the concrete values "blue" and "red". -/
theorem toggle_select_semantics_witness :
    handleColorSelect "blue" "blue" = "" ∧ handleColorSelect "blue" "red" = "red" ∧
      handleColorSelect (handleColorSelect "" "blue") "blue" = "" := by
  have h := toggle_select_semantics "blue" "red"
  exact ⟨h.1.1, (h.2.1 (by decide)).1, h.2.2.1⟩

/-- C5 — the query engine never reorders: its output is a sublist of the
input in the original order, and the unconstrained query (empty search
term, no color filter, no type filter) returns the collection unchanged. -/
theorem filteredLogos_sublist_and_id (logos : List Logo) (q : Query) :
    (filteredLogos logos q).Sublist logos ∧
      filteredLogos logos ⟨"", "", ""⟩ = logos := by
  constructor
  · exact List.filter_sublist logos
  · apply List.filter_eq_self.mpr
    intro a _
    simp [matchesQuery, toLowerStr_empty, strIncludes_empty]

/-- C3 — membership in the filtered output holds exactly when the record
is in the input and satisfies all three predicates: case-insensitive
name-substring match OR decade match of a `parseInt`-parsed search term,
the color filter (vacuous when unset), and the type filter (vacuous when
unset). -/
theorem filteredLogos_mem_iff (logos : List Logo) (q : Query) (r : Logo) :
    r ∈ filteredLogos logos q ↔
      r ∈ logos ∧
        (((toLowerStr q.searchTerm).toList <:+: (toLowerStr r.name).toList ∨
            ∃ n : Int, jsParseInt q.searchTerm = some n ∧ isInDecade r.year n = true) ∧
          (q.color = "" ∨ r.color = q.color) ∧
          (q.type = "" ∨ r.type = q.type)) := by
  unfold filteredLogos
  rw [List.mem_filter]
  apply and_congr_right
  intro _
  unfold matchesQuery
  rcases hj : jsParseInt q.searchTerm with _ | n <;>
    simp [hj, strIncludes_iff, Bool.and_eq_true, Bool.or_eq_true, beq_iff_eq, and_assoc]

/-- C2 — parser failure path: the parser returns the fallback record
(with `id = position`) exactly when the input is empty, the
extension-stripped string does not split on `|` into exactly 5 parts, or
one of the 5 parts is empty; in particular the empty string at position 5
yields the fallback record with id 5. -/
theorem parse_fallback_iff :
    (∀ (s : String) (p : Int),
      parseLogoFromFilename s p = fallbackLogo p ↔ malformedFilename s) ∧
    parseLogoFromFilename "" 5 = fallbackLogo 5 := by
  have main : ∀ (s : String) (p : Int),
      parseLogoFromFilename s p = fallbackLogo p ↔ malformedFilename s := by
    intro s p
    constructor
    · intro h
      by_contra hm
      rw [malformedFilename, not_or, not_or] at hm
      obtain ⟨hs, hlen, hemp⟩ := hm
      push_neg at hemp
      rcases hl : splitOnStr '|' (stripExtension s) with
        _ | ⟨a, _ | ⟨b, _ | ⟨c, _ | ⟨d, _ | ⟨e, _ | ⟨f, rest⟩⟩⟩⟩⟩⟩ <;>
        rw [hl] at hlen <;> try simp at hlen
      have hne : ¬ (a = "" ∨ b = "" ∨ c = "" ∨ d = "" ∨ e = "") := by
        rw [hl] at hemp
        intro hor
        rcases hor with he | he | he | he | he <;>
          [exact hemp a (by simp) he; exact hemp b (by simp) he;
           exact hemp c (by simp) he; exact hemp d (by simp) he;
           exact hemp e (by simp) he]
      rw [parse_success_eq s p a b c d e hs hl hne] at h
      exact successRecord_ne_fallback s p a b c d e hl h
    · exact parse_fallback_of_malformed s p
  exact ⟨main, (main "" 5).mpr (Or.inl rfl)⟩

/-- C8 — parser totality: for every input string the parser returns a
record, and the result is exhaustively either the fallback record or the
success-path record built from the 5 non-empty parts (the source's
`throw` sites are all caught, so nothing escapes to the caller). -/
theorem parse_total (s : String) (p : Int) :
    parseLogoFromFilename s p = fallbackLogo p ∨
    ∃ nm col src ty yr : String,
      splitOnStr '|' (stripExtension s) = [nm, col, src, ty, yr] ∧
      nm ≠ "" ∧ col ≠ "" ∧ src ≠ "" ∧ ty ≠ "" ∧ yr ≠ "" ∧
      parseLogoFromFilename s p =
        { id := p
          name := trimStr (insertSpaces nm)
          year := parseYear yr
          color := toLowerStr col
          type := toLowerStr ty
          imageUrl := "/logos/" ++ s
          source := parseSource src } := by
  by_cases hs : s = ""
  · exact Or.inl (by simp [parseLogoFromFilename, hs])
  rcases hl : splitOnStr '|' (stripExtension s) with
    _ | ⟨a, _ | ⟨b, _ | ⟨c, _ | ⟨d, _ | ⟨e, _ | ⟨f, rest⟩⟩⟩⟩⟩⟩
  all_goals try
    (refine Or.inl ?_
     unfold parseLogoFromFilename
     rw [if_neg hs, hl]
     try rfl
     done)
  by_cases hne : a = "" ∨ b = "" ∨ c = "" ∨ d = "" ∨ e = ""
  · refine Or.inl ?_
    unfold parseLogoFromFilename
    rw [if_neg hs, hl]
    exact if_pos hne
  · push_neg at hne
    exact Or.inr ⟨a, b, c, d, e, rfl, hne.1, hne.2.1, hne.2.2.1, hne.2.2.2.1,
      hne.2.2.2.2, parse_success_eq s p a b c d e hs hl (by tauto)⟩

/-- C6 counterexample — the year field `"0"` parses as the integer 0, yet
the record's year is 2000 (JS `parseInt(year) || 2000` treats 0 as falsy),
on an input that is otherwise on the success path. -/
theorem parse_year_zero_cex :
    parseLogoFromFilename "A|B|C|D|0" 1 ≠ fallbackLogo 1 ∧
    jsParseInt "0" = some 0 ∧
    (parseLogoFromFilename "A|B|C|D|0" 1).year = 2000 := by
  exact ⟨by decide, by decide, by decide⟩

/-- C6 amended — on the success path the record's year equals the integer
parsed from field 5 whenever that integer is non-zero, and equals 2000
exactly when field 5 fails to parse as an integer or parses to 0. -/
theorem parse_year_default_amended (s : String) (p : Int) (nm col src ty yr : String)
    (hs : s ≠ "")
    (hp : splitOnStr '|' (stripExtension s) = [nm, col, src, ty, yr])
    (h1 : nm ≠ "") (h2 : col ≠ "") (h3 : src ≠ "") (h4 : ty ≠ "") (h5 : yr ≠ "") :
    (∀ n : Int, jsParseInt yr = some n → n ≠ 0 →
      (parseLogoFromFilename s p).year = n) ∧
    ((jsParseInt yr = none ∨ jsParseInt yr = some 0) →
      (parseLogoFromFilename s p).year = 2000) := by
  rw [parse_success_eq s p nm col src ty yr hs hp (by tauto)]
  constructor
  · intro n hn hn0
    simp [parseYear, hn, hn0]
  · rintro (hn | hn) <;> simp [parseYear, hn]

/-- Witness for C6's amended claim at a concrete success-path input. -/
theorem parse_year_default_amended_witness :
    (parseLogoFromFilename "A|B|C|D|1922" 3).year = 1922 ∧
    (parseLogoFromFilename "A|B|C|D|year" 3).year = 2000 := by
  have ha := parse_year_default_amended "A|B|C|D|1922" 3 "A" "B" "C" "D" "1922"
    (by decide) (by decide) (by decide) (by decide) (by decide) (by decide) (by decide)
  have hb := parse_year_default_amended "A|B|C|D|year" 3 "A" "B" "C" "D" "year"
    (by decide) (by decide) (by decide) (by decide) (by decide) (by decide) (by decide)
  exact ⟨ha.1 1922 (by decide) (by decide), hb.2 (Or.inl (by decide))⟩

/-- C7 — type vocabulary mismatch: a success-path record whose raw type
field is `"SansSerif"` gets type `"sansserif"` (lower-cased, no hyphen),
so a query whose type filter is `"sans-serif"` never matches it; and the
Typography selector can only ever set `""`, `"serif"` or `"sans-serif"`,
never `"sansserif"`. -/
theorem sansserif_type_never_matches (s : String) (p : Int) (nm col src yr : String)
    (hs : s ≠ "")
    (hp : splitOnStr '|' (stripExtension s) = [nm, col, src, "SansSerif", yr])
    (h1 : nm ≠ "") (h2 : col ≠ "") (h3 : src ≠ "") (h5 : yr ≠ "") :
    (parseLogoFromFilename s p).type = "sansserif" ∧
    (∀ q : Query, q.type = "sans-serif" →
      matchesQuery q (parseLogoFromFilename s p) = false) ∧
    (∀ cur v : String, v ∈ typographyOptions → handleTypeSelect cur v ≠ "sansserif") := by
  have hrec := parse_success_eq s p nm col src "SansSerif" yr hs hp (by
    rintro (h | h | h | h | h)
    · exact h1 h
    · exact h2 h
    · exact h3 h
    · exact absurd h (by decide)
    · exact h5 h)
  have hlow : toLowerStr "SansSerif" = "sansserif" := by decide
  refine ⟨by rw [hrec]; exact hlow, ?_, ?_⟩
  · intro q hq
    rw [hrec]
    unfold matchesQuery
    rw [hq]
    have e1 : (("sans-serif" : String) == "") = false := by decide
    have e2 : ((toLowerStr "SansSerif") == "sans-serif") = false := by decide
    simp [e1, e2]
  · intro cur v hv
    simp only [typographyOptions, List.mem_cons, List.not_mem_nil, or_false] at hv
    rcases hv with rfl | rfl
    · unfold handleTypeSelect
      by_cases hc : (cur == "serif") = true
      · rw [if_pos hc]; decide
      · rw [if_neg hc]; decide
    · unfold handleTypeSelect
      by_cases hc : (cur == "sans-serif") = true
      · rw [if_pos hc]; decide
      · rw [if_neg hc]; decide

/-- Witness for C7 at the concrete input `"A|B|C|SansSerif|1983"` and the
query selecting the `"sans-serif"` type filter. -/
theorem sansserif_type_never_matches_witness :
    (parseLogoFromFilename "A|B|C|SansSerif|1983" 2).type = "sansserif" ∧
    matchesQuery ⟨"", "", "sans-serif"⟩ (parseLogoFromFilename "A|B|C|SansSerif|1983" 2) =
      false := by
  have h := sansserif_type_never_matches "A|B|C|SansSerif|1983" 2 "A" "B" "C" "1983"
    (by decide) (by decide) (by decide) (by decide) (by decide) (by decide)
  exact ⟨h.1, h.2.1 ⟨"", "", "sans-serif"⟩ rfl⟩

/-- C10 counterexample — `"0x10"` begins with the integer prefix 0, yet
`parseInt` reads it as hexadecimal 16, so the year branch is evaluated
with 16 rather than the leading integer: a record whose year 3 lies in
the decade of 0 is NOT matched by the query `"0x10"`. -/
theorem jsParseInt_hex_cex :
    decimalPrefixInt "0x10" = some 0 ∧ jsParseInt "0x10" = some 16 ∧
    matchesQuery ⟨"0x10", "", ""⟩ ⟨1, "q", 3, "c", "t", "u", "s"⟩ = false ∧
    isInDecade 3 0 = true :=
  ⟨by decide, by decide, by decide, by decide⟩

/-- C10 amended — for a search term whose first character is a decimal
digit, `parseInt` (and hence the year branch of the filter) evaluates to
the leading decimal-digit prefix, UNLESS the term starts with the hex
marker `0x`/`0X`, in which case it is read in base 16 and in particular
yields NaN (disabling the year branch) when no hexadecimal digits follow
the marker. -/
theorem jsParseInt_digit_leading_amended (s : String) (hd : headIsDigit s = true) :
    (jsHexMark s.toList = false → jsParseInt s = decimalPrefixInt s) ∧
    (jsHexMark s.toList = true → ((s.toList.drop 2).takeWhile isHexDigit).isEmpty = true →
      jsParseInt s = none) := by
  rcases hsl : s.toList with _ | ⟨c, rest⟩
  · exfalso
    have h := hd
    simp only [headIsDigit, hsl] at h
    exact Bool.noConfusion h
  have hc : c.isDigit = true := by
    have h := hd
    simp only [headIsDigit, hsl] at h
    exact h
  have hw : List.dropWhile Char.isWhitespace (c :: rest) = c :: rest := by
    rw [List.dropWhile_cons, digit_not_ws c hc]
    simp
  have hsign : jsSign (c :: rest) = (1, c :: rest) := jsSign_digit c rest hc
  constructor
  · intro hx
    simp only [jsParseInt, decimalPrefixInt]
    rw [hsl, hw, hsign]
    simp [hx, List.takeWhile_cons, hc]
  · intro hx hds
    simp only [jsParseInt]
    rw [hsl, hw, hsign]
    simp only [hx, hds]
    simp

/-- Witness for C10's amended claim at the concrete term `"192a"`. -/
theorem jsParseInt_digit_leading_amended_witness :
    jsParseInt "192a" = decimalPrefixInt "192a" ∧ decimalPrefixInt "192a" = some 192 := by
  have h := jsParseInt_digit_leading_amended "192a" (by decide)
  exact ⟨h.1 (by decide), by decide⟩

end LogoArchive
